import Mathlib

/-!
Shallow embedding of the feed-ingestion and analysis pipeline of
`django-podcast-analyzer` (`src/podcast_analyzer/models.py`), together with
theorems checking the natural-language specification against it.

Modelling conventions:
* Time is `Int` seconds (Django datetimes have microsecond precision; every
  constant in the embedded code is a whole number of days, `86400` seconds
  each, so second granularity is exact for all compared quantities).
* Nullable model fields are `Option`-valued.  A Python `dict.get(key, d)` is
  an `Option` field plus `Option.getD`; like Python's `get`, the model does
  not distinguish a missing key from a key stored with value `None`.
* The database tables touched by the pipeline (episodes, seasons, persons of
  one podcast, plus the podcast row itself) are modelled as lists inside
  `LibraryState`; Django's `get_or_create` is a `find?` followed by an
  append, and `QuerySet.update`-style row edits replace the found entry.
* Network fetches are modelled by passing the abstract HTTP response in as
  data; enqueueing of background tasks (`async_task`) has no effect on the
  record state and is omitted.
* String search helpers (`substring`, `split`, `lower`) are implemented
  structurally over `List Char` so that concrete instances reduce in the
  kernel; they implement Python's `in`, `split` and `lower` semantics.
-/

namespace PodcastAnalyzer

/-- Test `isPrefixList needle hay`: does `needle` start `hay`? -/
def isPrefixList : List Char → List Char → Bool
  | [], _ => true
  | _ :: _, [] => false
  | a :: as, b :: bs => a == b && isPrefixList as bs

/-- Does `needle` occur as a contiguous substring of `hay`? -/
def containsAux (needle : List Char) : List Char → Bool
  | [] => needle.isEmpty
  | c :: rest => isPrefixList needle (c :: rest) || containsAux needle rest

/-- Python's `needle in hay` substring test. -/
def strContains (hay needle : String) : Bool :=
  containsAux needle.data hay.data

/-- Python's `str.lower()` (over the ASCII range used by the detection
markers in `models.py`). -/
def lowerString (s : String) : String :=
  String.mk (s.data.map Char.toLower)

/-- Python's `str.split(sep)` for a single-character separator. -/
def splitOnCharAux (c : Char) (cur : List Char) : List Char → List (List Char)
  | [] => [cur.reverse]
  | x :: xs => if x == c then cur.reverse :: splitOnCharAux c [] xs else splitOnCharAux c (x :: cur) xs

/-- Split a character list on a separator character; Python's `split`. -/
def splitOnChar (c : Char) (l : List Char) : List (List Char) :=
  splitOnCharAux c [] l

/-- Join character lists with a separator character; Python's `sep.join`. -/
def charIntercalate (c : Char) : List (List Char) → List Char
  | [] => []
  | [x] => x
  | x :: y :: ys => x ++ c :: charIntercalate c (y :: ys)

/-- Stable insertion of `x` into a list sorted by `le`. -/
def insertSorted (le : α → α → Bool) (x : α) : List α → List α
  | [] => [x]
  | y :: ys => if le x y then x :: y :: ys else y :: insertSorted le x ys

/-- Stable ascending sort.  This is the behaviour of Python's `sorted` and of
Django's `order_by` for the keys used here: ties carry identical keys, so
every comparison sort computes the same list. -/
def sortBy (le : α → α → Bool) : List α → List α
  | [] => []
  | x :: xs => insertSorted le x (sortBy le xs)

/-- Ascending order on `Int`. -/
def intLE (a b : Int) : Bool := decide (a ≤ b)

/-- Python's `statistics.median_high`: sort, then take index `n / 2` (the
upper median for even `n`).  Empty input raises in Python; the model returns
`0` there, and every use below is guarded by a minimum episode count. -/
def medianHigh (l : List Int) : Int :=
  let s := sortBy intLE l
  s.getD (s.length / 2) 0

/-- The choices of `Podcast.ReleaseFrequency` (the stored value `"pending"`
is surfaced as `unknown`). -/
inductive ReleaseFrequency where
  | daily
  | often
  | weekly
  | biweekly
  | monthly
  | adhoc
  | unknown
deriving DecidableEq

/-- Ascending order on nullable release datetimes: Django's
`order_by("release_datetime")` sorts `NULL` rows first on the default
backend. -/
def optLE : Option Int → Option Int → Bool
  | none, _ => true
  | some _, none => false
  | some a, some b => decide (a ≤ b)

/-- The delta-collection loop of `Podcast.calculate_median_release_difference`:
`last_release` starts as `None`, is overwritten by every element, and a delta
(in whole seconds) is recorded only when both neighbours are non-null. -/
def collectDeltas : Option Int → List (Option Int) → List Int
  | _, [] => []
  | last, r :: rest =>
    (match last, r with
     | some l, some x => [x - l]
     | _, _ => []) ++ collectDeltas r rest

/-- Model of `Podcast.calculate_median_release_difference`: order the episodes'
release datetimes ascending, collect consecutive differences in seconds, and
take `median_high`.  The argument is the window's release datetimes in
arbitrary (queryset) order; the `order_by` call inside the source function is
the `sortBy`. -/
def calculate_median_release_difference (release_dates : List (Option Int)) : Int :=
  medianHigh (collectDeltas none (sortBy optLE release_dates))

/-- Model of `Podcast.set_release_frequency`, as a function of the analysis window's
release datetimes: fewer than five episodes yields `unknown`; otherwise the
median inter-release gap is bucketed against 2/5/8/15/33-day bounds. -/
def set_release_frequency (release_dates : List (Option Int)) : ReleaseFrequency :=
  if release_dates.length < 5 then ReleaseFrequency.unknown
  else
    let m := calculate_median_release_difference release_dates
    if m ≤ 2 * 86400 then ReleaseFrequency.daily
    else if m ≤ 5 * 86400 then ReleaseFrequency.often
    else if m ≤ 8 * 86400 then ReleaseFrequency.weekly
    else if m ≤ 15 * 86400 then ReleaseFrequency.biweekly
    else if m ≤ 33 * 86400 then ReleaseFrequency.monthly
    else ReleaseFrequency.adhoc

/-- Consecutive pairwise differences of a list, as the spec words the
inter-release gaps ("pairwise consecutive differences in seconds"). -/
def pairwiseGaps : List Int → List Int
  | a :: b :: rest => (b - a) :: pairwiseGaps (b :: rest)
  | _ => []

/-- The spec's frequency buckets for a median gap of `m` seconds. -/
def frequencyBucket (m : Int) : ReleaseFrequency :=
  if m ≤ 2 * 86400 then ReleaseFrequency.daily
  else if m ≤ 5 * 86400 then ReleaseFrequency.often
  else if m ≤ 8 * 86400 then ReleaseFrequency.weekly
  else if m ≤ 15 * 86400 then ReleaseFrequency.biweekly
  else if m ≤ 33 * 86400 then ReleaseFrequency.monthly
  else ReleaseFrequency.adhoc

/-- Release-frequency classification exactly as the spec words it (for
comparison with `set_release_frequency`): at least five episodes, the median
(upper-median tie-break) of consecutive gaps in ascending release order,
bucketed. -/
def spec_release_frequency (releases : List Int) : ReleaseFrequency :=
  if releases.length < 5 then ReleaseFrequency.unknown
  else frequencyBucket (medianHigh (pairwiseGaps (sortBy intLE releases)))

/-- The `frequency_day_mapping` dict of `Podcast.calculate_next_refresh_time`;
`none` models the `KeyError` a lookup of the `"pending"` value would raise. -/
def frequency_day_mapping : ReleaseFrequency → Option Nat
  | ReleaseFrequency.daily => some 1
  | ReleaseFrequency.often => some 3
  | ReleaseFrequency.weekly => some 7
  | ReleaseFrequency.biweekly => some 14
  | ReleaseFrequency.monthly => some 30
  | ReleaseFrequency.adhoc => some 60
  | ReleaseFrequency.unknown => none

/-- The `while next_run < timezone.now(): next_run += refresh_interval` loop
of `Podcast.calculate_next_refresh_time`, with the clock frozen at `now`.
Every interval the source can pass is at least one day (`86400` seconds), so
`max 1 interval = interval` at every use; the `max` only makes termination
manifest. -/
def whileAdvance (interval next_run now : Int) : Int :=
  if next_run < now then whileAdvance interval (next_run + max 1 interval) now
  else next_run
termination_by (now - next_run).toNat
decreasing_by
  simp_wf
  omega

/-- Model of `Podcast.calculate_next_refresh_time`: look the frequency up in the day
mapping (the source raises `KeyError` on `"pending"`, modelled as `none`),
override the interval to 60 days when dormant, start at
`last_release_date + interval` and advance by the interval while the value is
in the past. -/
def calculate_next_refresh_time (freq : ReleaseFrequency) (dormant : Bool)
    (last_release_date now : Int) : Option Int :=
  match frequency_day_mapping freq with
  | none => none
  | some days =>
    let refresh_interval : Int := if dormant then 60 * 86400 else (days : Int) * 86400
    some (whileAdvance refresh_interval (last_release_date + refresh_interval) now)

/-- The refresh interval, in seconds, that `calculate_next_refresh_time`
uses: the frequency's mapped day count, overridden to 60 days when the
podcast is dormant. -/
def intervalSeconds (freq : ReleaseFrequency) (dormant : Bool) : Int :=
  if dormant then 60 * 86400
  else (((frequency_day_mapping freq).getD 0 : Nat) : Int) * 86400

/-- Model of `Podcast.set_dormant` as a function on the dormant flag.  `latest` is the
most recent episode's nullable release datetime, or `none` when the podcast
has no episodes at all; in both degenerate cases the source logs and returns
without touching the flag. -/
def set_dormant (dormant : Bool) (latest : Option (Option Int)) (now : Int) : Bool :=
  match latest with
  | none => dormant
  | some none => dormant
  | some (some release) => if now - release > 65 * 86400 then true else false

/-- The channel-level part of the normalized feed dictionary produced by the
parsing capability, restricted to the keys `update_podcast_metadata_from_feed_data`
reads.  `has_itunes_key` abstracts the top-level key scan for any key
containing `"itunes"`; `has_locked_key` records presence of the `locked` key.
Presence of the `funding_url` key is read off `funding_url.isSome` (the
parsing capability omits the key rather than storing a null). -/
structure FeedChannel where
  title : Option String
  description : Option String
  link : Option String
  generator : Option String
  language : Option String
  funding_url : Option String
  type_ : Option String
  cover_url : Option String
  has_itunes_key : Bool
  has_locked_key : Bool
  explicit : Option Bool
  itunes_owner : Option (String × Option String)
  itunes_categories : List (List String)
  itunes_keywords : List String

/-- The `Podcast` row: the channel metadata, flags and cover-art state the
pipeline reads and writes.  `itunes_categories` holds the resolved
(name, parent-name) pairs; the shared `ItunesCategory` taxonomy table gives
those pairs identity via `get_or_create`, so the pairs themselves are the
faithful image of the podcast's category set. -/
structure PodcastMeta where
  rss_feed : String
  title : Option String
  description : Option String
  site_url : Option String
  generator : Option String
  language : Option String
  funding_url : Option String
  itunes_feed_type : Option String
  podcast_cover_art_url : Option String
  podcast_cached_cover_art : Option String
  podcast_art_cache_update_needed : Bool
  feed_contains_itunes_data : Bool
  feed_contains_podcast_index_data : Bool
  feed_contains_structured_donation_data : Bool
  itunes_explicit : Bool
  author : Option String
  email : Option String
  itunes_categories : List (String × Option String)
  tags : List String
  last_checked : Option Int

/-- The category-resolution loop of the iTunes branch: each entry is a 1- or
2-element list; a 2-element entry resolves to the child category under the
parent, a 1-element entry to the parent itself.  (The parse capability emits
only nonempty entries; `[]` maps to a dummy.) -/
def resolveCategories (cats : List (List String)) : List (String × Option String) :=
  cats.map (fun c =>
    match c with
    | [] => ("", none)
    | [parent] => (parent, none)
    | parent :: child :: _ => (child, some parent))

/-- First section of `Podcast.update_podcast_metadata_from_feed_data`: when
the feed advertises a cover URL differing from the stored one, raise the
art-refresh flag and store the new URL. -/
def coverArtStage (p : PodcastMeta) (feed : FeedChannel) : PodcastMeta :=
  match feed.cover_url with
  | none => p
  | some u =>
    if p.podcast_cover_art_url ≠ some u then
      { p with podcast_art_cache_update_needed := true, podcast_cover_art_url := some u }
    else p

/-- Second section: the top-level key scan.  Any key containing `"itunes"`
raises the iTunes flag; presence of `funding_url` or `locked` raises the
PodcastIndex flag. -/
def keyScanStage (p : PodcastMeta) (feed : FeedChannel) : PodcastMeta :=
  let p := if feed.has_itunes_key then { p with feed_contains_itunes_data := true } else p
  if feed.funding_url.isSome || feed.has_locked_key then
    { p with feed_contains_podcast_index_data := true }
  else p

/-- Third section: the fixed `feed_field_mapping` loop — seven fields copied
unconditionally via `feed_dict.get(key, None)`. -/
def fieldMapStage (p : PodcastMeta) (feed : FeedChannel) : PodcastMeta :=
  { p with
    title := feed.title
    description := feed.description
    site_url := feed.link
    generator := feed.generator
    language := feed.language
    funding_url := feed.funding_url
    itunes_feed_type := feed.type_ }

/-- Fourth section: the iTunes branch — explicit flag, owner name/email,
category resolution (clear-and-re-add) and wholesale keyword tags. -/
def itunesStage (p : PodcastMeta) (feed : FeedChannel) : PodcastMeta :=
  if p.feed_contains_itunes_data then
    let p := { p with itunes_explicit := feed.explicit.getD false }
    let p :=
      match feed.itunes_owner with
      | none => p
      | some owner => { p with author := some owner.1, email := owner.2 }
    { p with
      itunes_categories := resolveCategories feed.itunes_categories
      tags := feed.itunes_keywords }
  else p

/-- Fifth section: a present funding URL raises the structured-donation
flag. -/
def donationStage (p : PodcastMeta) : PodcastMeta :=
  if p.funding_url ≠ none then { p with feed_contains_structured_donation_data := true }
  else p

/-- Model of `Podcast.update_podcast_metadata_from_feed_data`: the five sections in
source order, then the `last_checked` stamp and save. -/
def update_podcast_metadata_from_feed_data (p : PodcastMeta) (feed : FeedChannel)
    (now : Int) : PodcastMeta :=
  { donationStage
      (itunesStage (fieldMapStage (keyScanStage (coverArtStage p feed) feed) feed) feed)
    with last_checked := some now }

/-- An entry of an episode item's `enclosures` list. -/
structure Enclosure where
  url : String
  mime_type : String
  file_size : Int

/-- An entry of an episode item's `persons` list (`podcast:person` tags). -/
structure FeedPerson where
  name : String
  href : Option String
  img : Option String
  role : Option String

/-- A normalized feed episode item, restricted to the keys
`Episode.create_or_update_episode_from_feed` reads.  `guid` and `title` are
mandatory in the parse capability's output (the source indexes them without a
default); `item_type` is the `type` key and `published` the epoch release
timestamp. -/
structure FeedItem where
  guid : String
  title : String
  description : Option String
  explicit : Option Bool
  item_type : Option String
  link : Option String
  published : Option Int
  enclosures : List Enclosure
  number : Option Nat
  total_time : Option Nat
  season : Option Nat
  transcript_url : Option String
  persons : List FeedPerson
  payment_url : Option String

/-- A `Person` row; identity is the loose `(name, url)` pair. -/
structure PersonRec where
  name : String
  url : Option String
  img_url : Option String

/-- An `Episode` row, restricted to the fields the reconciliation touches.
The host/guest many-to-many relations are the sets of attached person keys. -/
structure EpisodeRec where
  guid : String
  title : Option String
  ep_type : String
  season : Option Nat
  ep_num : Option Nat
  release_datetime : Option Int
  episode_url : Option String
  mime_type : Option String
  download_url : Option String
  itunes_duration : Option Nat
  file_size : Option Int
  itunes_explicit : Bool
  show_notes : Option String
  cw_present : Bool
  transcript_detected : Bool
  hosts_detected_from_feed : List (String × Option String)
  guests_detected_from_feed : List (String × Option String)

/-- Field defaults of a freshly `get_or_create`d episode row (only `podcast`
and `guid` are given; everything else takes the model default). -/
def defaultEpisode (guid : String) : EpisodeRec :=
  { guid := guid
    title := none
    ep_type := "full"
    season := none
    ep_num := none
    release_datetime := none
    episode_url := none
    mime_type := none
    download_url := none
    itunes_duration := none
    file_size := none
    itunes_explicit := false
    show_notes := none
    cw_present := false
    transcript_detected := false
    hosts_detected_from_feed := []
    guests_detected_from_feed := [] }

/-- The stored state one podcast's pipeline reads and writes: the podcast row
and its episode, season and person tables.  (Episodes are keyed by guid
within this podcast, matching the source's `(podcast, guid)` key.) -/
structure LibraryState where
  podcast : PodcastMeta
  episodes : List EpisodeRec
  seasons : List Nat
  persons : List PersonRec

/-- Django M2M `add`: a no-op when the relation already holds the row. -/
def m2mAdd (l : List (String × Option String)) (k : String × Option String) :
    List (String × Option String) :=
  if k ∈ l then l else l ++ [k]

/-- Replace the first list entry satisfying `p` (a row update keyed by the
predicate; `find?` and row `save` target the same first match). -/
def updateFirst (p : α → Bool) (f : α → α) : List α → List α
  | [] => []
  | x :: xs => if p x then f x :: xs else x :: updateFirst p f xs

/-- Model of `Person.objects.get_or_create(name=..., url=...)`. -/
def person_get_or_create (ps : List PersonRec) (n : String) (u : Option String) :
    List PersonRec × PersonRec :=
  match ps.find? (fun q => q.name == n && q.url == u) with
  | some q => (ps, q)
  | none =>
    (ps ++ [{ name := n, url := u, img_url := none }],
     { name := n, url := u, img_url := none })

/-- The `persons` loop of `Episode.create_or_update_episode_from_feed`:
roles other than host/guest are ignored, people are deduplicated by
`(name, href)`, `img_url` is filled only when currently null, and the person
is attached to the episode's guest or host relation. -/
def applyPersons (ps : List PersonRec) (ep : EpisodeRec) :
    List FeedPerson → List PersonRec × EpisodeRec
  | [] => (ps, ep)
  | person :: rest =>
    let role := person.role.getD "host"
    if role = "host" ∨ role = "guest" then
      let pr := person_get_or_create ps person.name person.href
      let ps :=
        match pr.2.img_url, person.img with
        | none, some img =>
          updateFirst (fun q => q.name == person.name && q.url == person.href)
            (fun q => { q with img_url := some img }) pr.1
        | _, _ => pr.1
      let ep :=
        if role = "guest" then
          { ep with guests_detected_from_feed :=
              m2mAdd ep.guests_detected_from_feed (person.name, person.href) }
        else
          { ep with hosts_detected_from_feed :=
              m2mAdd ep.hosts_detected_from_feed (person.name, person.href) }
      applyPersons ps ep rest
    else applyPersons ps ep rest

/-- The season `get_or_create` of `Episode.create_or_update_episode_from_feed`:
when the item carries a season number, make sure the season row exists. -/
def seasonsAfter (seasons : List Nat) (episode_dict : FeedItem) : List Nat :=
  match episode_dict.season with
  | none => seasons
  | some n => if n ∈ seasons then seasons else seasons ++ [n]

/-- The field-update block of `Episode.create_or_update_episode_from_feed`:
overwrite the mutable fields of `ep0` from the item and its first enclosure,
and infer the season link, transcript and content-warning signals.  `now` is
the frozen `timezone.now().timestamp()` used as the default release
timestamp. -/
def episodeFromItem (ep0 : EpisodeRec) (episode_dict : FeedItem)
    (enclosure : Enclosure) (now : Int) : EpisodeRec :=
  let description := episode_dict.description.getD ""
  let ep := { ep0 with
    title := some episode_dict.title
    itunes_explicit := episode_dict.explicit.getD false
    ep_type := episode_dict.item_type.getD "full"
    show_notes := some description
    episode_url := episode_dict.link
    release_datetime := some (episode_dict.published.getD now) }
  let ep :=
    if enclosure.file_size ≥ 0 then { ep with file_size := some enclosure.file_size }
    else ep
  let ep := { ep with
    mime_type := some enclosure.mime_type
    download_url := some enclosure.url
    ep_num := episode_dict.number
    itunes_duration := episode_dict.total_time }
  let ep :=
    match episode_dict.season with
    | none => ep
    | some n => { ep with season := some n }
  let ep :=
    if episode_dict.transcript_url ≠ none
        || strContains (lowerString description) "transcript" then
      { ep with transcript_detected := true }
    else ep
  if strContains description "CW"
      || strContains (lowerString description) "content warning"
      || strContains (lowerString description) "trigger warning"
      || strContains (lowerString description) "content note" then
    { ep with cw_present := true }
  else ep

/-- Model of `Episode.create_or_update_episode_from_feed`: skip enclosure-less items,
`get_or_create` by guid, and (when newly created or `update_existing_episodes`)
overwrite the mutable fields from the item via `episodeFromItem`, create the
season row if needed and attach detected people.  Returns the updated state
and whether a record was touched. -/
def create_or_update_episode_from_feed (st : LibraryState) (episode_dict : FeedItem)
    (update_existing_episodes : Bool) (now : Int) : LibraryState × Bool :=
  match episode_dict.enclosures with
  | [] => (st, false)
  | enclosure :: _ =>
    let found := st.episodes.find? (fun e => e.guid == episode_dict.guid)
    let created := found.isNone
    if update_existing_episodes || created then
      let ep := episodeFromItem (found.getD (defaultEpisode episode_dict.guid))
        episode_dict enclosure now
      let pe := applyPersons st.persons ep episode_dict.persons
      let episodes :=
        if created then st.episodes ++ [pe.2]
        else updateFirst (fun e => e.guid == episode_dict.guid) (fun _ => pe.2) st.episodes
      ({ st with
          episodes := episodes
          seasons := seasonsAfter st.seasons episode_dict
          persons := pe.1 },
        true)
    else (st, false)

/-- The loop body of `Podcast.update_episodes_from_feed_data`: the
structured-donation flag is raised when the item carries a `payment_url`, then
the episode is created or updated. -/
def processEpisodeItem (st : LibraryState) (episode : FeedItem)
    (update_existing_episodes : Bool) (now : Int) : LibraryState × Bool :=
  let st :=
    if episode.payment_url ≠ none
        ∧ ¬st.podcast.feed_contains_structured_donation_data then
      { st with podcast :=
          { st.podcast with feed_contains_structured_donation_data := true } }
    else st
  create_or_update_episode_from_feed st episode update_existing_episodes now

/-- Model of `Podcast.update_episodes_from_feed_data`: process the items in feed
order, counting the touched episodes. -/
def update_episodes_from_feed_data (st : LibraryState) (episode_list : List FeedItem)
    (update_existing_episodes : Bool) (now : Int) : LibraryState × Nat :=
  match episode_list with
  | [] => (st, 0)
  | episode :: rest =>
    let r1 := processEpisodeItem st episode update_existing_episodes now
    let r2 := update_episodes_from_feed_data r1.1 rest update_existing_episodes now
    (r2.1, (if r1.2 then 1 else 0) + r2.2)

/-- The guids of the stored episodes, in table order. -/
def guids (st : LibraryState) : List String :=
  st.episodes.map EpisodeRec.guid

/-- An `ArtUpdate` audit row. -/
structure ArtUpdateRec where
  reported_mime_type : Option String
  actual_mime_type : Option String
  valid_file : Bool

/-- The mime whitelist of `Podcast.process_cover_art_data`. -/
def artWhitelist : List String :=
  ["image/png", "image/jpeg", "image/gif", "image/webp"]

/-- The filename derivation of `Podcast.process_cover_art_data`: the URL's
last `/`-segment, stripped of a query string when a `?` is present. -/
def artFilename (cover_art_url : String) : String :=
  let filename := String.mk ((splitOnChar '/' cover_art_url.data).getLastD [])
  if filename.data.contains '?' then
    String.mk ((splitOnChar '?' filename.data).headD [])
  else filename

/-- Modelled from the spec: the canonical file extension for each
whitelisted mime type, as used by `update_file_extension_from_mime_type`
(which lives in `podcast_analyzer/utils.py`, a module that is not among the
provided sources). -/
def extensionForMime : String → String
  | "image/png" => "png"
  | "image/jpeg" => "jpg"
  | "image/gif" => "gif"
  | "image/webp" => "webp"
  | _ => ""

/-- Modelled from the spec: `podcast_analyzer.utils.update_file_extension_from_mime_type`
is imported by `models.py` but `utils.py` is not among the provided sources.
Per the spec (§4.4, §8) it normalizes the filename's extension to match the
sniffed mime type, e.g. a `.jpg` name becomes `.png` when the content sniffs
as `image/png`. -/
def update_file_extension_from_mime_type (mime_type filename : String) : String :=
  let parts := splitOnChar '.' filename.data
  let stem := if parts.length ≤ 1 then filename.data else charIntercalate '.' parts.dropLast
  String.mk (stem ++ '.' :: (extensionForMime mime_type).data)

/-- Model of `Podcast.process_cover_art_data` over the podcast row and the `ArtUpdate`
table.  `sniffed` is the outcome of the mime-sniffing capability on the
leading bytes of the download (`none` models a `MagicException`); the
accept/reject decision never consults `reported_mime_type`, which is only
recorded on the audit row.  On acceptance the art is cached under the
extension-corrected filename, the refresh flag is cleared and no audit row is
written; otherwise an invalid audit row is appended and the podcast row is
untouched. -/
def process_cover_art_data (p : PodcastMeta) (art_updates : List ArtUpdateRec)
    (sniffed : Option String) (cover_art_url : String)
    (reported_mime_type : Option String) : PodcastMeta × List ArtUpdateRec :=
  let filename := artFilename cover_art_url
  let update_record : ArtUpdateRec :=
    { reported_mime_type := reported_mime_type
      actual_mime_type := sniffed
      valid_file := sniffed.isSome }
  if update_record.valid_file
      && artWhitelist.any (fun m => update_record.actual_mime_type == some m) then
    let filename :=
      update_file_extension_from_mime_type (update_record.actual_mime_type.getD "") filename
    ({ p with
        podcast_cached_cover_art := some filename
        podcast_art_cache_update_needed := false },
     art_updates)
  else
    (p, art_updates ++ [{ update_record with valid_file := false }])

/-- The two error kinds that cross the feed-ingestion boundary
(`FeedFetchError` and `FeedParseError` from `podcast_analyzer/__init__`). -/
inductive FeedError where
  | fetchError
  | parseError

/-- A parsed feed: channel metadata plus the `episodes` item list (the
source's `podcast_dict.get("episodes", [])` default is the empty list). -/
structure ParsedFeed where
  channel : FeedChannel
  episodes : List FeedItem

/-- An abstract HTTP response for the feed fetch: final status, the statuses
of the redirect responses followed on the way (in order; empty when the
request was not redirected), the final URL, and the outcome of the parsing
capability on the body (`none` models a `podcastparser.FeedParseError`). -/
structure FetchResponse where
  status : Nat
  redirects : List Nat
  finalUrl : String
  parse : Option ParsedFeed

/-- Model of `Podcast.get_feed_data` over an abstract fetch outcome (`none` models an
`httpx.RequestError`).  A non-200 status raises `FeedFetchError`.  When the
final URL differs from the stored one, the last redirect response's status
decides whether the canonical URL is persisted onto the podcast row: only
301 `MOVED_PERMANENTLY` (the spec's §6 "301-class permanent redirects")
does; `httpx` fills the history whenever the URL changed, so `redirects` is
nonempty in every reachable redirected case.  Parsing failure raises
`FeedParseError` (after any URL persistence, matching the source order). -/
def get_feed_data (st : LibraryState) (resp : Option FetchResponse) :
    LibraryState × Except FeedError ParsedFeed :=
  match resp with
  | none => (st, Except.error FeedError.fetchError)
  | some r =>
    if r.status ≠ 200 then (st, Except.error FeedError.fetchError)
    else
      let st :=
        if r.finalUrl ≠ st.podcast.rss_feed then
          if r.redirects.getLastD 0 = 301 then
            { st with podcast := { st.podcast with rss_feed := r.finalUrl } }
          else st
        else st
      match r.parse with
      | none => (st, Except.error FeedError.parseError)
      | some feed => (st, Except.ok feed)

/-- Model of `Podcast.refresh_feed`: fetch and parse errors are caught and yield zero
touched episodes; on success the channel metadata reconciliation runs on the
post-fetch state, then the episode reconciliation.  The cover-art and
feed-analysis task dispatches only enqueue background work and are omitted
from the record state. -/
def refresh_feed (st : LibraryState) (resp : Option FetchResponse)
    (update_existing_episodes : Bool) (now : Int) : LibraryState × Nat :=
  match get_feed_data st resp with
  | (st1, Except.error _) => (st1, 0)
  | (st1, Except.ok feed) =>
    let st2 := { st1 with podcast :=
        update_podcast_metadata_from_feed_data st1.podcast feed.channel now }
    update_episodes_from_feed_data st2 feed.episodes update_existing_episodes now

/-- A blank podcast row, used by concrete witnesses. -/
def emptyPodcast : PodcastMeta :=
  { rss_feed := "http://example.com/feed.xml"
    title := none
    description := none
    site_url := none
    generator := none
    language := none
    funding_url := none
    itunes_feed_type := none
    podcast_cover_art_url := none
    podcast_cached_cover_art := none
    podcast_art_cache_update_needed := false
    feed_contains_itunes_data := false
    feed_contains_podcast_index_data := false
    feed_contains_structured_donation_data := false
    itunes_explicit := false
    author := none
    email := none
    itunes_categories := []
    tags := []
    last_checked := none }

/-- A library holding the blank podcast and empty tables. -/
def emptyLibrary : LibraryState :=
  { podcast := emptyPodcast, episodes := [], seasons := [], persons := [] }

/-- A concrete feed item with one enclosure, used by concrete witnesses. -/
def sampleItem : FeedItem :=
  { guid := "ep-1"
    title := "Episode 1"
    description := some "show notes"
    explicit := none
    item_type := none
    link := none
    published := some 1000
    enclosures := [{ url := "http://example.com/ep1.mp3", mime_type := "audio/mpeg", file_size := 123 }]
    number := some 1
    total_time := some 1800
    season := none
    transcript_url := none
    persons := []
    payment_url := none }

/-- A blank feed channel, used by concrete witnesses. -/
def emptyChannel : FeedChannel :=
  { title := some "Sample Cast"
    description := none
    link := none
    generator := none
    language := none
    funding_url := none
    type_ := none
    cover_url := none
    has_itunes_key := false
    has_locked_key := false
    explicit := none
    itunes_owner := none
    itunes_categories := []
    itunes_keywords := [] }

theorem insertSorted_map_some (x : Int) (l : List Int) :
    insertSorted optLE (some x) (l.map some) = (insertSorted intLE x l).map some := by
  induction l with
  | nil => rfl
  | cons y ys ih =>
    simp only [List.map_cons, insertSorted, optLE, intLE]
    by_cases h : x ≤ y
    · simp [h]
    · simp [h, ih]

theorem sortBy_map_some (l : List Int) :
    sortBy optLE (l.map some) = (sortBy intLE l).map some := by
  induction l with
  | nil => rfl
  | cons x xs ih => simp [sortBy, ih, insertSorted_map_some]

theorem collectDeltas_some_map (a : Int) (l : List Int) :
    collectDeltas (some a) (l.map some) = pairwiseGaps (a :: l) := by
  induction l generalizing a with
  | nil => rfl
  | cons b bs ih => simp [collectDeltas, pairwiseGaps, ih]

theorem collectDeltas_none_map (l : List Int) :
    collectDeltas none (l.map some) = pairwiseGaps l := by
  cases l with
  | nil => rfl
  | cons a as => simp [collectDeltas, pairwiseGaps, collectDeltas_some_map]

/-- C2: with fewer than five episodes in the window `set_release_frequency`
returns `unknown` regardless of spacing; otherwise it computes the
upper-median (`median_high`) of the consecutive inter-release gaps taken in
ascending release order, in seconds, and buckets it at 2/5/8/15/33 days —
exactly the spec's description (`spec_release_frequency`).  In particular
five episodes exactly seven days apart classify as `weekly`. -/
theorem C2_release_frequency_classification :
    (∀ releases : List Int,
        set_release_frequency (releases.map some) = spec_release_frequency releases)
    ∧ (∀ window : List (Option Int), window.length < 5 →
        set_release_frequency window = ReleaseFrequency.unknown)
    ∧ set_release_frequency
        [some 0, some 604800, some 1209600, some 1814400, some 2419200]
        = ReleaseFrequency.weekly := by
  refine ⟨?_, ?_, ?_⟩
  · intro releases
    simp only [set_release_frequency, spec_release_frequency, frequencyBucket,
      calculate_median_release_difference, List.length_map, sortBy_map_some,
      collectDeltas_none_map]
  · intro window h
    simp only [set_release_frequency, if_pos h]
  · decide

/-- Witness for C2: a four-episode window (seven days apart) has length
below five and classifies as `unknown`. -/
theorem C2_release_frequency_witness :
    ([some 0, some 604800, some 1209600, some 1814400] : List (Option Int)).length < 5
    ∧ set_release_frequency
        ([some 0, some 604800, some 1209600, some 1814400] : List (Option Int))
        = ReleaseFrequency.unknown :=
  ⟨by decide, C2_release_frequency_classification.2.1 _ (by decide)⟩

theorem whileAdvance_unfold (I start now : Int) :
    whileAdvance I start now =
      if start < now then whileAdvance I (start + max 1 I) now else start := by
  rw [whileAdvance]

theorem whileAdvance_characterization (I : Int) (hp : 0 < I) (now : Int) :
    ∀ (n : Nat) (start : Int), (now - start).toNat ≤ n →
      ∃ k : Nat, whileAdvance I start now = start + (k : Int) * I
        ∧ now ≤ start + (k : Int) * I
        ∧ ∀ j : Nat, j < k → start + (j : Int) * I < now := by
  have hmax : max 1 I = I := by omega
  intro n
  induction n with
  | zero =>
    intro start hle
    have hns : ¬ start < now := by omega
    refine ⟨0, ?_, ?_, ?_⟩
    · rw [whileAdvance_unfold, if_neg hns]
      simp
    · simp
      omega
    · intro j hj
      omega
  | succ n ih =>
    intro start hle
    by_cases h : start < now
    · obtain ⟨k, hk, hge, hlt⟩ := ih (start + I) (by omega)
      refine ⟨k + 1, ?_, ?_, ?_⟩
      · rw [whileAdvance_unfold, if_pos h, hmax, hk]
        push_cast
        ring
      · push_cast
        linarith
      · intro j hj
        cases j with
        | zero =>
          simpa using h
        | succ j' =>
          have hj' := hlt j' (by omega)
          push_cast at hj' ⊢
          linarith
    · refine ⟨0, ?_, ?_, ?_⟩
      · rw [whileAdvance_unfold, if_neg h]
        simp
      · simp
        omega
      · intro j hj
        omega

theorem next_refresh_core (I : Int) (hp : 0 < I) (last now : Int) :
    ∃ k : Nat, whileAdvance I (last + I) now = last + (k : Int) * I
      ∧ 1 ≤ k ∧ now ≤ last + (k : Int) * I
      ∧ ∀ j : Nat, 1 ≤ j → j < k → last + (j : Int) * I < now := by
  obtain ⟨k, hk, hge, hlt⟩ :=
    whileAdvance_characterization I hp now (now - (last + I)).toNat (last + I) le_rfl
  refine ⟨k + 1, ?_, by omega, ?_, ?_⟩
  · rw [hk]
    push_cast
    ring
  · push_cast
    linarith
  · intro j h1 hj
    obtain ⟨j', rfl⟩ : ∃ j'', j = j'' + 1 := ⟨j - 1, by omega⟩
    have hj' := hlt j' (by omega)
    push_cast at hj' ⊢
    linarith

theorem intervalSeconds_pos (freq : ReleaseFrequency) (dormant : Bool)
    (h : freq ≠ ReleaseFrequency.unknown) : 0 < intervalSeconds freq dormant := by
  cases freq <;> cases dormant <;>
    simp_all [intervalSeconds, frequency_day_mapping]

theorem calculate_next_refresh_time_eq_whileAdvance (freq : ReleaseFrequency)
    (dormant : Bool) (last now : Int) (h : freq ≠ ReleaseFrequency.unknown) :
    calculate_next_refresh_time freq dormant last now =
      some (whileAdvance (intervalSeconds freq dormant)
        (last + intervalSeconds freq dormant) now) := by
  cases freq <;>
    simp_all [calculate_next_refresh_time, frequency_day_mapping, intervalSeconds]

/-- C3 counterexample: the claim says the returned refresh time is strictly
later than the current time.  With frequency `weekly`, not dormant,
`last_release_date = 0` and the clock exactly at `0 + 7` days (`604800`
seconds), `calculate_next_refresh_time` returns `604800` itself — the loop
condition is `next_run < now`, so a value exactly equal to `now` is
accepted and is not strictly in the future. -/
theorem C3_counterexample_exact_boundary :
    calculate_next_refresh_time ReleaseFrequency.weekly false 0 604800 = some 604800
    ∧ ¬ (604800 : Int) < 604800 := by
  refine ⟨?_, by omega⟩
  simp only [calculate_next_refresh_time, frequency_day_mapping]
  norm_num
  rw [whileAdvance_unfold]
  norm_num

/-- C3 (amended): for every frequency other than `unknown`,
`calculate_next_refresh_time` returns `last_release_date + k * interval` for
the smallest integer `k ≥ 1` such that the result is not in the past (`≥`
the current time, rather than the claim's strictly later), where the
interval is daily=1, often=3, weekly=7, biweekly=14, monthly=30, adhoc=60
days and is overridden to 60 days whenever the podcast is dormant
(`intervalSeconds`).  In particular, with frequency `weekly` and the clock
at `last_release_date + 20` days it returns `last_release_date + 21` days. -/
theorem C3_next_refresh_time_amended :
    (∀ (freq : ReleaseFrequency) (dormant : Bool) (last now : Int),
      freq ≠ ReleaseFrequency.unknown →
      ∃ (r : Int) (k : Nat), calculate_next_refresh_time freq dormant last now = some r
        ∧ 1 ≤ k ∧ r = last + (k : Int) * intervalSeconds freq dormant
        ∧ now ≤ r
        ∧ ∀ j : Nat, 1 ≤ j → j < k →
            last + (j : Int) * intervalSeconds freq dormant < now)
    ∧ calculate_next_refresh_time ReleaseFrequency.weekly false 0 1728000 = some 1814400 := by
  constructor
  · intro freq dormant last now h
    obtain ⟨k, hk, h1, hge, hlt⟩ :=
      next_refresh_core (intervalSeconds freq dormant) (intervalSeconds_pos freq dormant h)
        last now
    exact ⟨last + (k : Int) * intervalSeconds freq dormant, k,
      by rw [calculate_next_refresh_time_eq_whileAdvance freq dormant last now h, hk],
      h1, rfl, hge, hlt⟩
  · simp only [calculate_next_refresh_time, frequency_day_mapping]
    norm_num
    rw [whileAdvance_unfold]
    norm_num
    rw [whileAdvance_unfold]
    norm_num
    rw [whileAdvance_unfold]
    norm_num

/-- Witness for C3's amended theorem: concrete instantiation at frequency
`weekly`, not dormant, `last_release_date = 0`, clock at 20 days. -/
theorem C3_next_refresh_time_witness :
    ReleaseFrequency.weekly ≠ ReleaseFrequency.unknown
    ∧ ∃ (r : Int) (k : Nat),
        calculate_next_refresh_time ReleaseFrequency.weekly false 0 1728000 = some r
        ∧ 1 ≤ k ∧ r = 0 + (k : Int) * intervalSeconds ReleaseFrequency.weekly false
        ∧ 1728000 ≤ r
        ∧ ∀ j : Nat, 1 ≤ j → j < k →
            0 + (j : Int) * intervalSeconds ReleaseFrequency.weekly false < 1728000 :=
  ⟨by decide, C3_next_refresh_time_amended.1 ReleaseFrequency.weekly false 0 1728000 (by decide)⟩

/-- C4: `set_dormant` marks the podcast dormant exactly when the most recent
episode's release time is strictly more than 65 days before the current
time: 66 days ago is dormant, 64 days ago is not, and exactly 65 days ago is
not; with no episode (or a null release date) the flag is left unchanged. -/
theorem C4_set_dormant_boundary :
    (∀ (b : Bool) (release now : Int),
        set_dormant b (some (some release)) now = true ↔ 65 * 86400 < now - release)
    ∧ (∀ (b : Bool) (now : Int), set_dormant b none now = b)
    ∧ (∀ (b : Bool) (now : Int), set_dormant b (some none) now = b)
    ∧ (∀ b : Bool, set_dormant b (some (some 0)) (66 * 86400) = true)
    ∧ (∀ b : Bool, set_dormant b (some (some 0)) (64 * 86400) = false)
    ∧ (∀ b : Bool, set_dormant b (some (some 0)) (65 * 86400) = false) := by
  refine ⟨?_, fun b now => rfl, fun b now => rfl, ?_, ?_, ?_⟩
  · intro b release now
    simp only [set_dormant]
    constructor
    · intro h
      by_contra hc
      simp [hc] at h
      omega
    · intro h
      simp only [if_pos (by omega : now - release > 65 * 86400)]
  · intro b
    cases b <;> decide
  · intro b
    cases b <;> decide
  · intro b
    cases b <;> decide

theorem cou_skip (st : LibraryState) (item : FeedItem) (u : Bool) (now : Int)
    (h : item.enclosures = []) :
    create_or_update_episode_from_feed st item u now = (st, false) := by
  unfold create_or_update_episode_from_feed
  rw [h]

/-- C9: a feed item whose enclosures list is empty (Python's
`episode_dict.get("enclosures", [])` also yields `[]` when the key is
absent) creates no episode: the state is returned unchanged and the function
reports `False`, so the item never counts toward the touched total. -/
theorem C9_enclosureless_never_materialized (st : LibraryState) (item : FeedItem)
    (u : Bool) (now : Int) (h : item.enclosures = []) :
    create_or_update_episode_from_feed st item u now = (st, false) :=
  cou_skip st item u now h

/-- Witness for C9 at a concrete enclosure-less item over the empty library. -/
theorem C9_enclosureless_witness :
    ({ sampleItem with enclosures := [] } : FeedItem).enclosures = []
    ∧ create_or_update_episode_from_feed emptyLibrary
        { sampleItem with enclosures := [] } false 0 = (emptyLibrary, false) :=
  ⟨rfl, C9_enclosureless_never_materialized emptyLibrary _ false 0 rfl⟩

/-- C5: `update_podcast_metadata_from_feed_data` overwrites each of the seven
fixed-mapped channel fields — title, description, site_url (from `link`),
generator, language, funding_url and itunes_feed_type (from `type`) —
unconditionally with the feed's value for that key; an absent key yields
`none`, even when a non-null value was previously stored. -/
theorem C5_metadata_fields_overwritten (p : PodcastMeta) (feed : FeedChannel) (now : Int) :
    (update_podcast_metadata_from_feed_data p feed now).title = feed.title
    ∧ (update_podcast_metadata_from_feed_data p feed now).description = feed.description
    ∧ (update_podcast_metadata_from_feed_data p feed now).site_url = feed.link
    ∧ (update_podcast_metadata_from_feed_data p feed now).generator = feed.generator
    ∧ (update_podcast_metadata_from_feed_data p feed now).language = feed.language
    ∧ (update_podcast_metadata_from_feed_data p feed now).funding_url = feed.funding_url
    ∧ (update_podcast_metadata_from_feed_data p feed now).itunes_feed_type = feed.type_ := by
  refine ⟨?_, ?_, ?_, ?_, ?_, ?_, ?_⟩ <;>
    · simp only [update_podcast_metadata_from_feed_data, donationStage, itunesStage,
        fieldMapStage]
      repeat' split
      all_goals rfl

/-- C10: the cover-art fields are governed by a change check, unlike the
fixed-mapped fields: a feed without a cover URL (or advertising the stored
one) leaves `podcast_cover_art_url` and `podcast_art_cache_update_needed`
unchanged; only a non-null advertised URL different from the stored value
stores the URL and raises the refresh flag. -/
theorem C10_cover_art_change_only (p : PodcastMeta) (feed : FeedChannel) (now : Int) :
    (feed.cover_url = none →
        (update_podcast_metadata_from_feed_data p feed now).podcast_cover_art_url
            = p.podcast_cover_art_url
        ∧ (update_podcast_metadata_from_feed_data p feed now).podcast_art_cache_update_needed
            = p.podcast_art_cache_update_needed)
    ∧ (feed.cover_url = p.podcast_cover_art_url →
        (update_podcast_metadata_from_feed_data p feed now).podcast_cover_art_url
            = p.podcast_cover_art_url
        ∧ (update_podcast_metadata_from_feed_data p feed now).podcast_art_cache_update_needed
            = p.podcast_art_cache_update_needed)
    ∧ (∀ u : String, feed.cover_url = some u → p.podcast_cover_art_url ≠ some u →
        (update_podcast_metadata_from_feed_data p feed now).podcast_cover_art_url = some u
        ∧ (update_podcast_metadata_from_feed_data p feed now).podcast_art_cache_update_needed
            = true) := by
  have hfrm : ∀ q : PodcastMeta,
      (update_podcast_metadata_from_feed_data p feed now).podcast_cover_art_url
          = (coverArtStage p feed).podcast_cover_art_url
      ∧ (update_podcast_metadata_from_feed_data p feed now).podcast_art_cache_update_needed
          = (coverArtStage p feed).podcast_art_cache_update_needed := by
    intro q
    constructor <;>
      · simp only [update_podcast_metadata_from_feed_data, donationStage, itunesStage,
          fieldMapStage, keyScanStage]
        repeat' split
        all_goals rfl
  refine ⟨?_, ?_, ?_⟩
  · intro h
    rw [(hfrm p).1, (hfrm p).2]
    simp [coverArtStage, h]
  · intro h
    rw [(hfrm p).1, (hfrm p).2]
    cases hc : feed.cover_url with
    | none => simp [coverArtStage, hc]
    | some u =>
      rw [hc] at h
      simp [coverArtStage, hc, ← h]
  · intro u hu hne
    rw [(hfrm p).1, (hfrm p).2]
    simp [coverArtStage, hu, hne]

/-- Witness for C10 at a concrete feed advertising a fresh cover URL over
the blank podcast. -/
theorem C10_cover_art_witness :
    ({ emptyChannel with cover_url := some "http://example.com/cover.png" } : FeedChannel).cover_url
        = some "http://example.com/cover.png"
    ∧ emptyPodcast.podcast_cover_art_url ≠ some "http://example.com/cover.png"
    ∧ (update_podcast_metadata_from_feed_data emptyPodcast
          { emptyChannel with cover_url := some "http://example.com/cover.png" } 0).podcast_cover_art_url
        = some "http://example.com/cover.png"
    ∧ (update_podcast_metadata_from_feed_data emptyPodcast
          { emptyChannel with cover_url := some "http://example.com/cover.png" } 0).podcast_art_cache_update_needed
        = true := by
  refine ⟨rfl, by simp [emptyPodcast], ?_⟩
  exact (C10_cover_art_change_only emptyPodcast _ 0).2.2 "http://example.com/cover.png" rfl
    (by simp [emptyPodcast])

theorem get_feed_data_frame (st : LibraryState) (resp : Option FetchResponse) :
    (get_feed_data st resp).1.episodes = st.episodes
    ∧ (get_feed_data st resp).1.seasons = st.seasons
    ∧ (get_feed_data st resp).1.persons = st.persons := by
  refine ⟨?_, ?_, ?_⟩ <;>
    · unfold get_feed_data
      repeat' split
      all_goals rfl

theorem get_feed_data_error_cases (st : LibraryState) (resp : Option FetchResponse)
    (h : resp = none ∨ ∃ r, resp = some r ∧ (r.status ≠ 200 ∨ r.parse = none)) :
    ∃ e, (get_feed_data st resp).2 = Except.error e := by
  rcases h with rfl | ⟨r, rfl, hs | hp⟩
  · exact ⟨FeedError.fetchError, rfl⟩
  · exact ⟨FeedError.fetchError, by simp [get_feed_data, hs]⟩
  · by_cases hst : r.status = 200
    · exact ⟨FeedError.parseError, by simp [get_feed_data, hst, hp]⟩
    · exact ⟨FeedError.fetchError, by simp [get_feed_data, hst]⟩

theorem refresh_feed_of_error (st : LibraryState) (resp : Option FetchResponse)
    (u : Bool) (now : Int) (e : FeedError)
    (h : (get_feed_data st resp).2 = Except.error e) :
    refresh_feed st resp u now = ((get_feed_data st resp).1, 0) := by
  unfold refresh_feed
  rcases hgd : get_feed_data st resp with ⟨st1, res⟩
  rw [hgd] at h
  cases res with
  | error e2 => rfl
  | ok feed => simp at h

/-- C8: whenever fetching the feed fails (request error or non-200 status,
`FeedFetchError`) or parsing it fails (`FeedParseError`), `refresh_feed`
catches the error and returns zero episodes touched; no episode, season or
person record is created or updated, and — the model being a total function
into `LibraryState × Nat` — no exception reaches the caller. -/
theorem C8_refresh_feed_error_short_circuit (st : LibraryState)
    (resp : Option FetchResponse) (u : Bool) (now : Int)
    (h : resp = none ∨ ∃ r, resp = some r ∧ (r.status ≠ 200 ∨ r.parse = none)) :
    ∃ st', refresh_feed st resp u now = (st', 0)
      ∧ st'.episodes = st.episodes
      ∧ st'.seasons = st.seasons
      ∧ st'.persons = st.persons := by
  obtain ⟨e, he⟩ := get_feed_data_error_cases st resp h
  exact ⟨(get_feed_data st resp).1, refresh_feed_of_error st resp u now e he,
    (get_feed_data_frame st resp).1, (get_feed_data_frame st resp).2.1,
    (get_feed_data_frame st resp).2.2⟩

/-- Witness for C8 at a concrete failed fetch (request error) over the
empty library. -/
theorem C8_refresh_feed_error_witness :
    ((none : Option FetchResponse) = none
      ∨ ∃ r, (none : Option FetchResponse) = some r ∧ (r.status ≠ 200 ∨ r.parse = none))
    ∧ ∃ st', refresh_feed emptyLibrary none false 0 = (st', 0)
      ∧ st'.episodes = emptyLibrary.episodes
      ∧ st'.seasons = emptyLibrary.seasons
      ∧ st'.persons = emptyLibrary.persons :=
  ⟨Or.inl rfl, C8_refresh_feed_error_short_circuit emptyLibrary none false 0 (Or.inl rfl)⟩

theorem metadata_preserves_rss (p : PodcastMeta) (feed : FeedChannel) (now : Int) :
    (update_podcast_metadata_from_feed_data p feed now).rss_feed = p.rss_feed := by
  simp only [update_podcast_metadata_from_feed_data, donationStage, itunesStage,
    fieldMapStage, keyScanStage, coverArtStage]
  repeat' split
  all_goals rfl

theorem cou_podcast (st : LibraryState) (item : FeedItem) (u : Bool) (now : Int) :
    (create_or_update_episode_from_feed st item u now).1.podcast = st.podcast := by
  unfold create_or_update_episode_from_feed
  cases henc : item.enclosures with
  | nil => rfl
  | cons e tl =>
    cases hf : st.episodes.find? (fun ep => ep.guid == item.guid) <;> cases u <;> rfl

theorem run_podcast_rss (items : List FeedItem) (st : LibraryState) (u : Bool) (now : Int) :
    (update_episodes_from_feed_data st items u now).1.podcast.rss_feed
      = st.podcast.rss_feed := by
  induction items generalizing st with
  | nil => rfl
  | cons i rest ih =>
    simp only [update_episodes_from_feed_data]
    rw [ih]
    unfold processEpisodeItem
    split <;> rw [cou_podcast]

theorem refresh_feed_rss (st : LibraryState) (resp : Option FetchResponse)
    (u : Bool) (now : Int) :
    (refresh_feed st resp u now).1.podcast.rss_feed
      = (get_feed_data st resp).1.podcast.rss_feed := by
  unfold refresh_feed
  rcases hgd : get_feed_data st resp with ⟨st1, res⟩
  cases res with
  | error e => rfl
  | ok feed =>
    simp only
    rw [run_podcast_rss]
    exact metadata_preserves_rss st1.podcast feed.channel now

theorem gfd_state_perm (st : LibraryState) (r : FetchResponse)
    (hok : r.status = 200) (hred : r.finalUrl ≠ st.podcast.rss_feed)
    (h301 : r.redirects.getLastD 0 = 301) :
    (get_feed_data st (some r)).1
      = { st with podcast := { st.podcast with rss_feed := r.finalUrl } } := by
  rw [List.getLastD_eq_getLast?] at h301
  cases hp : r.parse <;> simp [get_feed_data, hok, hred, h301, hp]

theorem gfd_state_temp (st : LibraryState) (r : FetchResponse)
    (hok : r.status = 200) (h301 : r.redirects.getLastD 0 ≠ 301) :
    (get_feed_data st (some r)).1 = st := by
  rw [List.getLastD_eq_getLast?] at h301
  by_cases hred : r.finalUrl = st.podcast.rss_feed <;>
    cases hp : r.parse <;> simp [get_feed_data, hok, hred, h301, hp]

theorem gfd_result_redirect_independent (st : LibraryState) (r : FetchResponse)
    (hist : List Nat) :
    (get_feed_data st (some r)).2
      = (get_feed_data st (some { r with redirects := hist })).2 := by
  by_cases hok : r.status = 200 <;> by_cases hred : r.finalUrl = st.podcast.rss_feed <;>
    cases hp : r.parse <;>
    simp [get_feed_data, hok, hred, hp]

/-- C6: `get_feed_data` rewrites the stored `rss_feed` exactly when the
fetch was redirected and the last redirect hop was a 301 permanent redirect
(the spec's "301-class" permanent redirects); a temporary redirect leaves
the stored field unchanged while the parsed result is identical regardless
of the redirect statuses.  The write happens inside the fetch step, before
metadata reconciliation begins: on success `refresh_feed` applies the
metadata reconciliation to the state whose `rss_feed` is already rewritten,
and the rewrite survives the whole pipeline. -/
theorem C6_permanent_redirect_url_persistence (st : LibraryState) (r : FetchResponse)
    (u : Bool) (now : Int) (hok : r.status = 200) :
    (r.finalUrl ≠ st.podcast.rss_feed → r.redirects.getLastD 0 = 301 →
        (get_feed_data st (some r)).1
          = { st with podcast := { st.podcast with rss_feed := r.finalUrl } })
    ∧ (r.redirects.getLastD 0 ≠ 301 → (get_feed_data st (some r)).1 = st)
    ∧ (∀ hist : List Nat,
        (get_feed_data st (some r)).2
          = (get_feed_data st (some { r with redirects := hist })).2)
    ∧ (∀ feed : ParsedFeed, r.parse = some feed →
        r.finalUrl ≠ st.podcast.rss_feed → r.redirects.getLastD 0 = 301 →
        ∃ stP : LibraryState,
          stP = { st with podcast := { st.podcast with rss_feed := r.finalUrl } }
          ∧ refresh_feed st (some r) u now =
              update_episodes_from_feed_data
                { stP with podcast := update_podcast_metadata_from_feed_data stP.podcast feed.channel now }
                feed.episodes u now)
    ∧ (r.finalUrl ≠ st.podcast.rss_feed → r.redirects.getLastD 0 = 301 →
        (refresh_feed st (some r) u now).1.podcast.rss_feed = r.finalUrl)
    ∧ (r.redirects.getLastD 0 ≠ 301 →
        (refresh_feed st (some r) u now).1.podcast.rss_feed = st.podcast.rss_feed) := by
  refine ⟨fun hred h301 => gfd_state_perm st r hok hred h301,
    fun h301 => gfd_state_temp st r hok h301,
    fun hist => gfd_result_redirect_independent st r hist, ?_, ?_, ?_⟩
  · intro feed hp hred h301
    refine ⟨{ st with podcast := { st.podcast with rss_feed := r.finalUrl } }, rfl, ?_⟩
    have h301' := h301
    rw [List.getLastD_eq_getLast?] at h301'
    have hgd : get_feed_data st (some r)
        = ({ st with podcast := { st.podcast with rss_feed := r.finalUrl } },
           Except.ok feed) := by
      simp [get_feed_data, hok, hred, h301', hp]
    unfold refresh_feed
    rw [hgd]
  · intro hred h301
    rw [refresh_feed_rss, gfd_state_perm st r hok hred h301]
  · intro h301
    rw [refresh_feed_rss, gfd_state_temp st r hok h301]

/-- Witness for C6 at a concrete permanently redirected fetch: the stored
feed URL is rewritten to the redirect target. -/
theorem C6_permanent_redirect_witness :
    ({ status := 200, redirects := [301], finalUrl := "http://example.com/new.xml",
       parse := none } : FetchResponse).status = 200
    ∧ (get_feed_data emptyLibrary
        (some { status := 200, redirects := [301], finalUrl := "http://example.com/new.xml",
                parse := none })).1
      = { emptyLibrary with podcast :=
          { emptyLibrary.podcast with rss_feed := "http://example.com/new.xml" } } :=
  ⟨rfl,
    (C6_permanent_redirect_url_persistence emptyLibrary
      { status := 200, redirects := [301], finalUrl := "http://example.com/new.xml",
        parse := none } false 0 rfl).1
      (by simp [emptyLibrary, emptyPodcast]) rfl⟩

/-- C7: `process_cover_art_data` accepts the downloaded bytes exactly when
the independently sniffed mime type (never the server-reported one, which is
only recorded on the audit row) is one of png/jpeg/gif/webp.  On acceptance
the stored filename's extension is corrected to match the sniffed type (a
`.jpg` name becomes `.png` for content sniffing as `image/png`), the art is
cached and the refresh flag cleared, with no `ArtUpdate` row; on rejection
(sniff failure or a non-whitelisted type such as `text/html`) an `ArtUpdate`
row with `valid_file = false` is appended and the cached art and flag are
untouched. -/
theorem C7_cover_art_validation (p : PodcastMeta) (updates : List ArtUpdateRec)
    (url : String) (reported : Option String) :
    (∀ t, t ∈ artWhitelist →
        process_cover_art_data p updates (some t) url reported
          = ({ p with
                podcast_cached_cover_art :=
                  some (update_file_extension_from_mime_type t (artFilename url))
                podcast_art_cache_update_needed := false },
             updates))
    ∧ (∀ t, t ∉ artWhitelist →
        process_cover_art_data p updates (some t) url reported
          = (p, updates ++
              [{ reported_mime_type := reported, actual_mime_type := some t,
                 valid_file := false }]))
    ∧ process_cover_art_data p updates none url reported
        = (p, updates ++
            [{ reported_mime_type := reported, actual_mime_type := none,
               valid_file := false }])
    ∧ process_cover_art_data p updates (some "image/png")
        "http://example.com/art/cover.jpg" reported
        = ({ p with
              podcast_cached_cover_art := some "cover.png"
              podcast_art_cache_update_needed := false },
           updates)
    ∧ process_cover_art_data p updates (some "text/html")
        "http://example.com/art/cover.jpg" reported
        = (p, updates ++
            [{ reported_mime_type := reported, actual_mime_type := some "text/html",
               valid_file := false }]) := by
  have accept : ∀ (u : String) (t : String), t ∈ artWhitelist →
      process_cover_art_data p updates (some t) u reported
        = ({ p with
              podcast_cached_cover_art :=
                some (update_file_extension_from_mime_type t (artFilename u))
              podcast_art_cache_update_needed := false },
           updates) := by
    intro u t ht
    simp [process_cover_art_data, ht]
  have reject : ∀ (u : String) (t : String), t ∉ artWhitelist →
      process_cover_art_data p updates (some t) u reported
        = (p, updates ++
            [{ reported_mime_type := reported, actual_mime_type := some t,
               valid_file := false }]) := by
    intro u t ht
    simp [process_cover_art_data, ht]
  refine ⟨accept url, reject url, ?_, ?_, ?_⟩
  · simp [process_cover_art_data]
  · rw [accept "http://example.com/art/cover.jpg" "image/png" (by decide)]
    have hext : update_file_extension_from_mime_type "image/png"
        (artFilename "http://example.com/art/cover.jpg") = "cover.png" := by decide
    rw [hext]
  · exact reject "http://example.com/art/cover.jpg" "text/html" (by decide)

/-- Witness for C7: concrete acceptance of `image/png` content downloaded
from a `.jpg` URL over the blank podcast. -/
theorem C7_cover_art_witness :
    "image/png" ∈ artWhitelist
    ∧ process_cover_art_data emptyPodcast [] (some "image/png")
        "http://example.com/art/cover.jpg" (some "text/plain")
        = ({ emptyPodcast with
              podcast_cached_cover_art :=
                some (update_file_extension_from_mime_type "image/png"
                  (artFilename "http://example.com/art/cover.jpg"))
              podcast_art_cache_update_needed := false },
           []) :=
  ⟨by decide,
    (C7_cover_art_validation emptyPodcast [] "http://example.com/art/cover.jpg"
      (some "text/plain")).1 "image/png" (by decide)⟩

theorem cou_of_found (st : LibraryState) (item : FeedItem) (now : Int) (e' : EpisodeRec)
    (hf : st.episodes.find? (fun ep => ep.guid == item.guid) = some e') :
    create_or_update_episode_from_feed st item false now = (st, false) := by
  unfold create_or_update_episode_from_feed
  cases henc : item.enclosures with
  | nil => rfl
  | cons e tl =>
    rw [hf]
    rfl

theorem episodeFromItem_guid (ep0 : EpisodeRec) (item : FeedItem) (e : Enclosure)
    (now : Int) : (episodeFromItem ep0 item e now).guid = ep0.guid := by
  simp only [episodeFromItem]
  repeat' split
  all_goals rfl

theorem applyPersons_guid (ps : List PersonRec) (ep : EpisodeRec)
    (people : List FeedPerson) : (applyPersons ps ep people).2.guid = ep.guid := by
  induction people generalizing ps ep with
  | nil => rfl
  | cons person rest ih =>
    simp only [applyPersons]
    repeat' split
    all_goals rw [ih]

theorem cou_of_not_found (st : LibraryState) (item : FeedItem) (now : Int)
    (e : Enclosure) (tl : List Enclosure) (henc : item.enclosures = e :: tl)
    (hf : st.episodes.find? (fun ep => ep.guid == item.guid) = none) :
    ∃ ep : EpisodeRec, ep.guid = item.guid ∧
      create_or_update_episode_from_feed st item false now
        = ({ st with
              episodes := st.episodes ++ [ep]
              seasons := seasonsAfter st.seasons item
              persons := (applyPersons st.persons
                (episodeFromItem (defaultEpisode item.guid) item e now) item.persons).1 },
           true) := by
  refine ⟨(applyPersons st.persons
    (episodeFromItem (defaultEpisode item.guid) item e now) item.persons).2, ?_, ?_⟩
  · rw [applyPersons_guid, episodeFromItem_guid]
    rfl
  · unfold create_or_update_episode_from_feed
    rw [henc, hf]
    rfl

theorem cou_mem (st : LibraryState) (item : FeedItem) (now : Int)
    (henc : item.enclosures ≠ []) :
    item.guid ∈ guids (create_or_update_episode_from_feed st item false now).1 := by
  cases henc2 : item.enclosures with
  | nil => exact absurd henc2 henc
  | cons e tl =>
    cases hf : st.episodes.find? (fun ep => ep.guid == item.guid) with
    | none =>
      obtain ⟨ep, hg, heq⟩ := cou_of_not_found st item now e tl henc2 hf
      rw [heq]
      simp [guids, hg]
    | some e' =>
      rw [cou_of_found st item now e' hf]
      have hmem := List.mem_of_find?_eq_some hf
      have hprop := List.find?_some (Option.mem_def.mpr hf)
      simp only [beq_iff_eq] at hprop
      exact List.mem_map.mpr ⟨e', hmem, hprop⟩

theorem cou_guids (st : LibraryState) (item : FeedItem) (now : Int) :
    guids (create_or_update_episode_from_feed st item false now).1 = guids st
    ∨ (item.guid ∉ guids st
        ∧ guids (create_or_update_episode_from_feed st item false now).1
            = guids st ++ [item.guid]) := by
  cases henc : item.enclosures with
  | nil =>
    left
    rw [cou_skip st item false now henc]
  | cons e tl =>
    cases hf : st.episodes.find? (fun ep => ep.guid == item.guid) with
    | some e' =>
      left
      rw [cou_of_found st item now e' hf]
    | none =>
      right
      constructor
      · intro hmem
        obtain ⟨ep, hep, hg⟩ := List.mem_map.mp hmem
        have hnp := List.find?_eq_none.mp hf ep hep
        simp [hg] at hnp
      · obtain ⟨ep, hg, heq⟩ := cou_of_not_found st item now e tl henc hf
        rw [heq]
        simp [guids, hg]

theorem step_guids (st : LibraryState) (item : FeedItem) (now : Int) :
    guids (processEpisodeItem st item false now).1 = guids st
    ∨ (item.guid ∉ guids st
        ∧ guids (processEpisodeItem st item false now).1 = guids st ++ [item.guid]) := by
  unfold processEpisodeItem
  split
  · exact cou_guids _ item now
  · exact cou_guids _ item now

theorem step_mem (st : LibraryState) (item : FeedItem) (now : Int)
    (henc : item.enclosures ≠ []) :
    item.guid ∈ guids (processEpisodeItem st item false now).1 := by
  unfold processEpisodeItem
  split
  · exact cou_mem _ item now henc
  · exact cou_mem _ item now henc

theorem step_flag_mono (st : LibraryState) (item : FeedItem) (u : Bool) (now : Int)
    (h : st.podcast.feed_contains_structured_donation_data = true) :
    (processEpisodeItem st item u now).1.podcast.feed_contains_structured_donation_data
      = true := by
  unfold processEpisodeItem
  split
  · rw [cou_podcast]
  · rw [cou_podcast]
    exact h

theorem step_flag_set (st : LibraryState) (item : FeedItem) (u : Bool) (now : Int)
    (h : item.payment_url ≠ none) :
    (processEpisodeItem st item u now).1.podcast.feed_contains_structured_donation_data
      = true := by
  unfold processEpisodeItem
  split
  · rw [cou_podcast]
  · rename_i hcond
    rw [cou_podcast]
    by_contra hflag
    exact hcond ⟨h, hflag⟩

theorem step_noop (st : LibraryState) (item : FeedItem) (now : Int)
    (hmem : item.enclosures ≠ [] → item.guid ∈ guids st)
    (hflag : item.payment_url ≠ none →
        st.podcast.feed_contains_structured_donation_data = true) :
    processEpisodeItem st item false now = (st, false) := by
  unfold processEpisodeItem
  split
  · rename_i hcond
    exact absurd (hflag hcond.1) hcond.2
  · cases henc : item.enclosures with
    | nil => exact cou_skip st item false now henc
    | cons e tl =>
      have hm := hmem (by simp [henc])
      obtain ⟨ep, hep, hg⟩ := List.mem_map.mp hm
      have hsome : (st.episodes.find? (fun q => q.guid == item.guid)).isSome := by
        rw [List.find?_isSome]
        exact ⟨ep, hep, by simp [hg]⟩
      obtain ⟨e', hf⟩ := Option.isSome_iff_exists.mp hsome
      exact cou_of_found st item now e' hf

theorem run_fst (st : LibraryState) (i : FeedItem) (rest : List FeedItem)
    (u : Bool) (now : Int) :
    (update_episodes_from_feed_data st (i :: rest) u now).1
      = (update_episodes_from_feed_data (processEpisodeItem st i u now).1 rest u now).1 :=
  rfl

theorem run_mono_mem (items : List FeedItem) (st : LibraryState) (now : Int)
    (g : String) (hg : g ∈ guids st) :
    g ∈ guids (update_episodes_from_feed_data st items false now).1 := by
  induction items generalizing st with
  | nil => exact hg
  | cons i rest ih =>
    rw [run_fst]
    apply ih
    rcases step_guids st i now with h | ⟨_, h⟩
    · rw [h]
      exact hg
    · rw [h]
      exact List.mem_append_left _ hg

theorem run_mono_flag (items : List FeedItem) (st : LibraryState) (now : Int)
    (h : st.podcast.feed_contains_structured_donation_data = true) :
    (update_episodes_from_feed_data st items false now).1.podcast.feed_contains_structured_donation_data
      = true := by
  induction items generalizing st with
  | nil => exact h
  | cons i rest ih =>
    rw [run_fst]
    exact ih _ (step_flag_mono st i false now h)

theorem run_establishes (items : List FeedItem) (st : LibraryState) (now : Int) :
    ∀ item ∈ items,
      (item.enclosures ≠ [] →
          item.guid ∈ guids (update_episodes_from_feed_data st items false now).1)
      ∧ (item.payment_url ≠ none →
          (update_episodes_from_feed_data st items false now).1.podcast.feed_contains_structured_donation_data
            = true) := by
  induction items generalizing st with
  | nil =>
    intro item h
    cases h
  | cons i rest ih =>
    intro item hmem
    rcases List.mem_cons.mp hmem with rfl | hmem'
    · constructor
      · intro henc
        rw [run_fst]
        exact run_mono_mem rest _ now _ (step_mem st item now henc)
      · intro hpay
        rw [run_fst]
        exact run_mono_flag rest _ now (step_flag_set st item false now hpay)
    · have hrest := ih (processEpisodeItem st i false now).1 item hmem'
      constructor
      · intro henc
        rw [run_fst]
        exact hrest.1 henc
      · intro hpay
        rw [run_fst]
        exact hrest.2 hpay

theorem step_nodup (st : LibraryState) (item : FeedItem) (now : Int)
    (h : (guids st).Nodup) : (guids (processEpisodeItem st item false now).1).Nodup := by
  rcases step_guids st item now with heq | ⟨hnm, heq⟩
  · rw [heq]
    exact h
  · rw [heq]
    simp [List.nodup_append, h, hnm]

theorem run_nodup (items : List FeedItem) (st : LibraryState) (now : Int)
    (h : (guids st).Nodup) :
    (guids (update_episodes_from_feed_data st items false now).1).Nodup := by
  induction items generalizing st with
  | nil => exact h
  | cons i rest ih =>
    rw [run_fst]
    exact ih _ (step_nodup st i now h)

theorem run_noop (items : List FeedItem) (st : LibraryState) (now : Int)
    (h : ∀ item ∈ items,
        (item.enclosures ≠ [] → item.guid ∈ guids st)
        ∧ (item.payment_url ≠ none →
            st.podcast.feed_contains_structured_donation_data = true)) :
    update_episodes_from_feed_data st items false now = (st, 0) := by
  induction items with
  | nil => rfl
  | cons i rest ih =>
    have hstep := step_noop st i now (h i (List.mem_cons_self i rest)).1
      (h i (List.mem_cons_self i rest)).2
    simp only [update_episodes_from_feed_data, hstep]
    rw [ih (fun item hm => h item (List.mem_cons_of_mem i hm))]
    rfl

/-- C1: episode reconciliation with `update_existing` false is idempotent.
Starting from a store with no duplicate guid, one run never creates a
duplicate episode per (podcast, guid), and a second run over the same item
list (at any later clock) leaves the state — episodes, seasons, persons and
podcast row — exactly as after the first run and reports zero episodes
touched: every item is either enclosure-less (skipped) or finds its existing
episode and leaves it untouched. -/
theorem C1_episode_reconciliation_idempotent (st : LibraryState) (items : List FeedItem)
    (now now2 : Int) (hnd : (guids st).Nodup) :
    (guids (update_episodes_from_feed_data st items false now).1).Nodup
    ∧ update_episodes_from_feed_data
        (update_episodes_from_feed_data st items false now).1 items false now2
      = ((update_episodes_from_feed_data st items false now).1, 0) := by
  refine ⟨run_nodup items st now hnd, ?_⟩
  exact run_noop items _ now2 (run_establishes items st now)

/-- Witness for C1: a one-item feed over the empty library; the second run
returns the first run's state untouched and zero episodes. -/
theorem C1_episode_reconciliation_witness :
    (guids emptyLibrary).Nodup
    ∧ ((guids (update_episodes_from_feed_data emptyLibrary [sampleItem] false 0).1).Nodup
      ∧ update_episodes_from_feed_data
          (update_episodes_from_feed_data emptyLibrary [sampleItem] false 0).1
          [sampleItem] false 5
        = ((update_episodes_from_feed_data emptyLibrary [sampleItem] false 0).1, 0)) :=
  ⟨by decide, C1_episode_reconciliation_idempotent emptyLibrary [sampleItem] 0 5 (by decide)⟩

end PodcastAnalyzer
